import Mathlib

/-!
Shallow embedding of the parser core of `plot-electricity` (src/app.rs):
`UsageEntry::parse` and `UsageData::parse`, together with the Rust standard
library parsing routines they rely on (`str::split`, `str::split_once`,
`u8::from_str`, `u16::from_str`, `f64::from_str`).

Modelling conventions:
* Rust `&str` values are Lean `String`s; the splitting primitives are
  defined structurally on the underlying `List Char` so that they reduce
  in the kernel.
* Rust machine integers are `Nat` with explicit range checks at the parse
  boundary (`% 2^8`, `% 2^16` never arise after a successful range-checked
  parse, so the parsed values are plain `Nat`s below the bound).
* `f64` values are modelled by `F64`: an exact rational for finite values,
  plus `inf`, `negInf` and `nan`.  Rust rounds a parsed decimal to the
  nearest `f64` (overflowing to infinity); the model keeps the exact
  rational and does not track the sign of zero or NaN payloads.  Every
  numeric literal appearing in the verified claims (`0.5`, `1.0`) is
  exactly representable, where the two semantics agree.
* A Rust function returning `anyhow::Result` is embedded with `Except
  String` / `PResult`; the `.unwrap()` call on the USAGE field (which can
  panic) is embedded with an explicit `PResult.panic` outcome.
-/

namespace PlotElec

/-- Rust `str::split(c)` on the character list: always returns at least one
piece; consecutive separators and leading/trailing separators produce empty
pieces, exactly as in Rust. -/
def splitListOn (c : Char) : List Char → List (List Char)
  | [] => [[]]
  | x :: xs =>
    if x = c then
      [] :: splitListOn c xs
    else
      match splitListOn c xs with
      | [] => [[x]]
      | piece :: rest => (x :: piece) :: rest

/-- Rust `str::split_once` generalised to a predicate: split at the first
character satisfying `p`, or `none` when no character does. -/
def splitOnceP (p : Char → Bool) : List Char → Option (List Char × List Char)
  | [] => none
  | x :: xs =>
    if p x then some ([], xs)
    else (splitOnceP p xs).map (fun q => (x :: q.1, q.2))

/-- Rust `str::split(c)` on `String`s. -/
def rsplit (c : Char) (s : String) : List String :=
  (splitListOn c s.data).map String.mk

/-- Rust `str::split_once(c)` on `String`s. -/
def rsplitOnce (c : Char) (s : String) : Option (String × String) :=
  (splitOnceP (fun x => x == c) s.data).map (fun q => (String.mk q.1, String.mk q.2))

/-- Rust `{s:?}` debug formatting of a string slice: the string wrapped in
double quotes.  (Rust additionally backslash-escapes quotes, backslashes and
control characters inside `s`; no string compared against in this
development contains such a character, so the model omits the escaping.) -/
def rustDebugStr (s : String) : String :=
  "\"" ++ s ++ "\""

/-- Value of a list of decimal digit characters, most significant first. -/
def digitsToNat (l : List Char) : Nat :=
  l.foldl (fun n c => n * 10 + (c.toNat - 48)) 0

/-- Rust `uN::from_str` for an unsigned integer type of bit width `w`
(`u8::from_str` for `w = 8`, `u16::from_str` for `w = 16`): an optional
leading `+`, then one or more decimal digits, with a range check.  The
error strings are the `Display` output of the corresponding
`core::num::ParseIntError` kinds, which is what `anyhow`'s `?` conversion
surfaces.  `rustUIntDigits` is the digit slice after the optional sign. -/
def rustUIntDigits (s : String) : List Char :=
  if s.data.head? = some '+' then s.data.tail else s.data

/-- See `rustUIntDigits`: `u8::from_str` is `rustParseUInt 8`,
`u16::from_str` is `rustParseUInt 16`. -/
def rustParseUInt (w : Nat) (s : String) : Except String Nat :=
  if s.data = [] then
    .error "cannot parse integer from empty string"
  else if rustUIntDigits s = [] then
    .error "invalid digit found in string"
  else if ¬ (rustUIntDigits s).all Char.isDigit then
    .error "invalid digit found in string"
  else if digitsToNat (rustUIntDigits s) < 2 ^ w then
    .ok (digitsToNat (rustUIntDigits s))
  else
    .error "number too large to fit in target type"

/-- Model of an `f64` value: finite values are kept as exact rationals. -/
inductive F64 where
  | finite (val : Rat)
  | inf
  | negInf
  | nan
deriving DecidableEq, Repr

/-- Mantissa part of Rust's float grammar:
`Digit+ | Digit+ '.' Digit* | Digit* '.' Digit+`, split at the first `.`.
A second `.` lands in the fractional part, fails `all isDigit`, and is
rejected, as in Rust.  The exact value is returned as a numerator and a
power-of-ten denominator: the value of `ip.fp` is
`digitsToNat (ip ++ fp) / 10 ^ fp.length`. -/
def parseF64Mantissa (l : List Char) : Option (Nat × Nat) :=
  match splitOnceP (fun x => x == '.') l with
  | none =>
    if l ≠ [] ∧ l.all Char.isDigit then some (digitsToNat l, 1) else none
  | some (ip, fp) =>
    if (ip.all Char.isDigit ∧ fp.all Char.isDigit) ∧ (ip ≠ [] ∨ fp ≠ []) then
      some (digitsToNat (ip ++ fp), 10 ^ fp.length)
    else
      none

/-- Exponent part of Rust's float grammar: `Sign? Digit+`. -/
def parseF64Exp (l : List Char) : Option Int :=
  let (sgn, ds) := match l with
    | '+' :: rest => ((1 : Int), rest)
    | '-' :: rest => ((-1 : Int), rest)
    | l' => ((1 : Int), l')
  if ds ≠ [] ∧ ds.all Char.isDigit then some (sgn * (digitsToNat ds : Int)) else none

/-- Rust `f64::from_str`: optional sign, then a case-insensitive
`inf`/`infinity`/`NaN`, or a decimal number with an optional `e`/`E`
exponent.  Leading or trailing whitespace is NOT accepted (so `"0.5 "`
fails to parse).  Finite results are the exact rational value (see the
module comment for the rounding caveat). -/
def rustParseF64 (s : String) : Option F64 :=
  let (neg, body) := match s.data with
    | '+' :: rest => (false, rest)
    | '-' :: rest => (true, rest)
    | l => (false, l)
  let lower := body.map Char.toLower
  if lower = "inf".data ∨ lower = "infinity".data then
    some (if neg then .negInf else .inf)
  else if lower = "nan".data then
    some .nan
  else
    match splitOnceP (fun x => x == 'e' || x == 'E') body with
    | none =>
      (parseF64Mantissa body).map (fun q =>
        .finite (mkRat (if neg then -(q.1 : Int) else (q.1 : Int)) q.2))
    | some (m, e) =>
      match parseF64Mantissa m, parseF64Exp e with
      | some q, some ex =>
        let num : Int := if neg then -(q.1 : Int) else (q.1 : Int)
        some (.finite (if 0 ≤ ex then mkRat (num * (10 : Int) ^ ex.toNat) q.2
                       else mkRat num (q.2 * 10 ^ (-ex).toNat)))
      | _, _ => none

/-- Result of a Rust computation that can return `Ok`, return `Err`, or
panic (abort the program). -/
inductive PResult (α : Type) where
  | ok (val : α)
  | err (msg : String)
  | panic (msg : String)
deriving DecidableEq, Repr

/-- Panic message of `.unwrap()` on the `Err` of a failed `f64` parse
(`scalar.parse::<f64>().unwrap()` in `UsageEntry::parse`). -/
def unwrapPanicMsg : String :=
  "called `Result::unwrap()` on an `Err` value: ParseFloatError \x7b kind: Invalid \x7d"

/-- The parsed record for one data line (`struct UsageEntry` in the
source); `date` is `(year, month, day)`. -/
structure UsageEntry where
  date : Nat × Nat × Nat
  interval_start_hour : Nat
  interval_end_hour : Nat
  kilowatt_hours : F64
  note : String
deriving DecidableEq, Repr

/-- The DATE field parser inside `UsageEntry::parse` (lines 38-58 of
app.rs): split on `/`, take month (`u8`), day (`u8`), year (`u16`) from
the first three pieces.  NOTE: the source never checks that the iterator
is exhausted, so pieces after the third are silently ignored.  The
`"Expected Month"` arm mirrors the source's `ok_or_else` on the first
`next()`, which never fires because `split` always yields a first piece. -/
def parseDate (s : String) : Except String (Nat × Nat × Nat) :=
  match rsplit '/' s with
  | [] => .error "Expected Month"
  | monthStr :: rest =>
    match rustParseUInt 8 monthStr with
    | .error e => .error e
    | .ok month =>
      match rest with
      | [] => .error "Expected Day"
      | dayStr :: rest2 =>
        match rustParseUInt 8 dayStr with
        | .error e => .error e
        | .ok day =>
          match rest2 with
          | [] => .error "Expected Year"
          | yearStr :: _ =>
            match rustParseUInt 16 yearStr with
            | .error e => .error e
            | .ok year => .ok (year, month, day)

/-- The time-field parsing block of `UsageEntry::parse`, duplicated inline
in the source for the start time (lines 60-84) and the end time (lines
86-110): split at the first `:`, split the rest at the first space,
require minutes `"00"`, parse the hour as `u8`, reduce it modulo 12 and
add the AM/PM offset. -/
def parseTimeField (s : String) : Except String Nat :=
  match rsplitOnce ':' s with
  | none => .error ("Invalid date " ++ rustDebugStr s)
  | some (hourStr, rest) =>
    match rsplitOnce ' ' rest with
    | none => .error ("Invalid date " ++ rustDebugStr s)
    | some (minutes, hemiday) =>
      if minutes ≠ "00" then
        .error "Program is illequiped to handle non-zero minutes"
      else
        match rustParseUInt 8 hourStr with
        | .error e => .error e
        | .ok h =>
          if hemiday = "AM" ∨ hemiday = "am" then .ok (h % 12)
          else if hemiday = "PM" ∨ hemiday = "pm" then .ok (h % 12 + 12)
          else .error ("Unknown hemiday " ++ rustDebugStr hemiday ++ ", AM/PM or am/pm accepted")

/-- Multiplication of a parsed scalar by the `"kWh"` unit factor `1.0`
(`scalar * 1.0` in the source), which is the identity on every `f64`
value the model distinguishes. -/
def F64.mulOne (x : F64) : F64 := x

/-- Body of `UsageEntry::parse` after the line has been split on commas:
the source walks `line.split(',')` with `iterator.next()` in this exact
order.  A malformed USAGE field is reached through
`scalar.parse::<f64>().unwrap()` and panics (it does not return an
error); the unit is only examined afterwards. -/
def UsageEntry.parseFields : List String → PResult UsageEntry
  | [] => .err "Insuffiecient entries in line, "
  | entryType :: fields =>
    if entryType ≠ "Electric usage" then
      .err ("Unknown entry type " ++ rustDebugStr entryType)
    else
      match fields with
      | [] => .err "Insufficient entries in line, expected date."
      | dateStr :: fields1 =>
        match parseDate dateStr with
        | .error e => .err e
        | .ok date =>
          match fields1 with
          | [] => .err "Insuffiecient entries in line, expected start time"
          | startStr :: fields2 =>
            match parseTimeField startStr with
            | .error e => .err e
            | .ok interval_start_hour =>
              match fields2 with
              | [] => .err "Insuffiecient entries in line, expected end time"
              | endStr :: fields3 =>
                match parseTimeField endStr with
                | .error e => .err e
                | .ok interval_end_hour =>
                  match fields3 with
                  | scalarStr :: unitStr :: fields4 =>
                    match rustParseF64 scalarStr with
                    | none => .panic unwrapPanicMsg
                    | some scalar =>
                      if unitStr = "kWh" then
                        match fields4 with
                        | [] =>
                          .err "Expected final entry for note (may be empty, but comma is expected)"
                        | note :: fields5 =>
                          match fields5 with
                          | [] =>
                            .ok ⟨date, interval_start_hour, interval_end_hour,
                                 scalar.mulOne, note⟩
                          | _ :: _ => .err "Extra entries in the line"
                      else
                        .err ("Unknown unit " ++ rustDebugStr unitStr)
                  | _ => .err "Insufficient entries in line, expected usage and unit"

/-- `UsageEntry::parse` (lines 26-137 of app.rs). -/
def UsageEntry.parse (line : String) : PResult UsageEntry :=
  UsageEntry.parseFields (rsplit ',' line)

/-- The parsed document (`struct UsageData` in the source). -/
structure UsageData where
  address : String
  entries : List UsageEntry
deriving DecidableEq, Repr

/-- Outcome of parsing the data-line section: success, the first entry
error together with its `with_context` annotation, or a panic. -/
inductive EntriesResult where
  | ok (entries : List UsageEntry)
  | fail (context : String) (cause : String)
  | panic (msg : String)
deriving DecidableEq, Repr

/-- Outcome of `UsageData::parse`: success, a header-level error, an
entry error wrapped in its `with_context` line annotation, or a panic. -/
inductive DocResult where
  | ok (data : UsageData)
  | err (msg : String)
  | entryErr (context : String) (cause : String)
  | panic (msg : String)
deriving DecidableEq, Repr

/-- The entry-collection pipeline of `UsageData::parse` (lines 160-164):
`lines.filter(non-empty).enumerate().map(parse with context).collect()`.
`i` is the `enumerate` counter, which counts only the (already filtered)
non-empty lines; the context is `"On line {i + 3}"`; `collect` into
`Result` stops at the first error. -/
def collectEntries (i : Nat) : List String → EntriesResult
  | [] => .ok []
  | line :: rest =>
    match UsageEntry.parse line with
    | .err e => .fail ("On line " ++ toString (i + 3)) e
    | .panic m => .panic m
    | .ok entry =>
      match collectEntries (i + 1) rest with
      | .ok entries => .ok (entry :: entries)
      | r => r

/-- The exact header required verbatim on the third line. -/
def headerLine : String := "TYPE,DATE,START TIME,END TIME,USAGE,UNITS,NOTES"

/-- Injection of the entry-section outcome into the document outcome. -/
def entriesToDoc (address : String) : EntriesResult → DocResult
  | .ok entries => .ok ⟨address, entries⟩
  | .fail ctx cause => .entryErr ctx cause
  | .panic m => .panic m

/-- `UsageData::parse` (lines 147-168 of app.rs): split the input on
`"\n"`, take the first line as the address (the `"Expected an address"`
arm mirrors the source's pattern on the first `next()`, which never
fails), require the second line blank and the third equal to
`headerLine`, then parse the remaining non-empty lines. -/
def UsageData.parse (input : String) : DocResult :=
  match rsplit '\n' input with
  | [] => .err "Expected an address at the top of the file"
  | address :: rest =>
    match rest with
    | [] => .err "Expected second line to be blank"
    | second :: rest2 =>
      if second ≠ "" then
        .err "Expected second line to be blank"
      else
        match rest2 with
        | [] => .err "Incorrect headers. Format must have changed or something. Sorry"
        | third :: dataLines =>
          if third ≠ headerLine then
            .err "Incorrect headers. Format must have changed or something. Sorry"
          else
            entriesToDoc address (collectEntries 0 (dataLines.filter (fun l => !l.isEmpty)))

/-!
Helper lemmas about the embedded primitives, followed by the verification
of the individual claims about the parser.
-/

theorem splitListOn_ne_nil (c : Char) (l : List Char) : splitListOn c l ≠ [] := by
  induction l with
  | nil => simp [splitListOn]
  | cons x xs ih =>
    simp only [splitListOn]
    split
    · simp
    · split
      · simp
      · simp

theorem rsplit_ne_nil (c : Char) (s : String) : rsplit c s ≠ [] := by
  unfold rsplit
  simp [splitListOn_ne_nil]

theorem splitOnceP_append (p : Char → Bool) (xs : List Char) (ch : Char) (ys : List Char)
    (hxs : ∀ x ∈ xs, p x = false) (hc : p ch = true) :
    splitOnceP p (xs ++ ch :: ys) = some (xs, ys) := by
  induction xs with
  | nil => simp [splitOnceP, hc]
  | cons a as ih =>
    have ha : p a = false := hxs a (List.mem_cons_self a as)
    have has : ∀ x ∈ as, p x = false := fun x hx => hxs x (List.mem_cons_of_mem a hx)
    simp [splitOnceP, ha, ih has]

theorem rsplitOnce_append (c : Char) (s t u : String)
    (hs : ∀ x ∈ s.data, (x == c) = false) (hu : u.data = c :: t.data) :
    rsplitOnce c (s ++ u) = some (s, t) := by
  unfold rsplitOnce
  rw [String.data_append, hu, splitOnceP_append _ _ _ _ hs (by simp)]
  rfl

theorem rustParseUInt_all_digits (w : Nat) (s : String) (n : Nat)
    (h : rustParseUInt w s = .ok n) : (rustUIntDigits s).all Char.isDigit = true := by
  unfold rustParseUInt at h
  by_cases h0 : s.data = []
  · simp [h0] at h
  by_cases h1 : rustUIntDigits s = []
  · simp [h0, h1] at h
  by_cases h2 : (rustUIntDigits s).all Char.isDigit
  · exact h2
  · simp [h0, h1, h2] at h

theorem rustParseUInt_ok_chars (w : Nat) (s : String) (n : Nat)
    (h : rustParseUInt w s = .ok n) : ∀ x ∈ s.data, x = '+' ∨ x.isDigit := by
  have hall := rustParseUInt_all_digits w s n h
  rw [List.all_eq_true] at hall
  intro x hx
  unfold rustUIntDigits at hall
  cases hd : s.data with
  | nil => rw [hd] at hx; simp at hx
  | cons y ys =>
    rw [hd] at hall hx
    by_cases hy : y = '+'
    · subst hy
      rw [if_pos (show ('+' :: ys).head? = some '+' from rfl)] at hall
      simp only [List.tail_cons] at hall
      rcases List.mem_cons.mp hx with hx1 | hx1
      · exact Or.inl hx1
      · exact Or.inr (hall x hx1)
    · have hcond : ¬((y :: ys).head? = some '+') := by simp [hy]
      rw [if_neg hcond] at hall
      rcases List.mem_cons.mp hx with hx1 | hx1
      · subst hx1; exact Or.inr (hall x (List.mem_cons_self x ys))
      · exact Or.inr (hall x (List.mem_cons_of_mem y hx1))

theorem rustParseUInt_ok_no_colon (w : Nat) (s : String) (n : Nat)
    (h : rustParseUInt w s = .ok n) : ∀ x ∈ s.data, (x == ':') = false := by
  intro x hx
  rcases rustParseUInt_ok_chars w s n h x hx with h1 | h1
  · subst h1; decide
  · rw [beq_eq_false_iff_ne]
    intro hxe
    subst hxe
    exact absurd h1 (by decide)

theorem parseTimeField_le (s : String) (n : Nat)
    (h : parseTimeField s = .ok n) : n ≤ 23 := by
  unfold parseTimeField at h
  split at h
  · simp at h
  next p =>
    split at h
    · simp at h
    next q =>
      split at h
      · simp at h
      · split at h
        · simp at h
        next m hm =>
          split at h
          · simp only [Except.ok.injEq] at h
            have : m % 12 < 12 := Nat.mod_lt _ (by omega)
            omega
          · split at h
            · simp only [Except.ok.injEq] at h
              have : m % 12 < 12 := Nat.mod_lt _ (by omega)
              omega
            · simp at h

theorem data_mk (l : List Char) : (String.mk l).data = l := rfl

theorem parseTimeField_AM (hourStr : String) (n : Nat)
    (h : rustParseUInt 8 hourStr = .ok n) :
    parseTimeField (hourStr ++ ":00 AM") = .ok (n % 12) := by
  have hc := rustParseUInt_ok_no_colon 8 hourStr n h
  have h1 : rsplitOnce ':' (hourStr ++ ":00 AM") = some (hourStr, "00 AM") :=
    rsplitOnce_append ':' hourStr "00 AM" ":00 AM" hc rfl
  have h2 : rsplitOnce ' ' "00 AM" = some ("00", "AM") := rfl
  simp [parseTimeField, h1, h2, h]

theorem parseTimeField_PM (hourStr : String) (n : Nat)
    (h : rustParseUInt 8 hourStr = .ok n) :
    parseTimeField (hourStr ++ ":00 PM") = .ok (n % 12 + 12) := by
  have hc := rustParseUInt_ok_no_colon 8 hourStr n h
  have h1 : rsplitOnce ':' (hourStr ++ ":00 PM") = some (hourStr, "00 PM") :=
    rsplitOnce_append ':' hourStr "00 PM" ":00 PM" hc rfl
  have h2 : rsplitOnce ' ' "00 PM" = some ("00", "PM") := rfl
  simp [parseTimeField, h1, h2, h]

theorem parseTimeField_minutes (minutes hemiday : String) (h0 : minutes ≠ "00")
    (hsp : ∀ x ∈ minutes.data, (x == ' ') = false) :
    parseTimeField ("1:" ++ minutes ++ " " ++ hemiday)
      = .error "Program is illequiped to handle non-zero minutes" := by
  have hdata : ("1:" ++ minutes ++ " " ++ hemiday).data
      = '1' :: ':' :: (minutes.data ++ ' ' :: hemiday.data) := by
    simp [String.data_append]
  have h1 : rsplitOnce ':' ("1:" ++ minutes ++ " " ++ hemiday)
      = some ("1", String.mk (minutes.data ++ ' ' :: hemiday.data)) := by
    unfold rsplitOnce
    rw [hdata]
    simp [splitOnceP]
  have h2 : rsplitOnce ' ' (String.mk (minutes.data ++ ' ' :: hemiday.data))
      = some (minutes, hemiday) := by
    unfold rsplitOnce
    rw [data_mk, splitOnceP_append _ _ _ _ hsp (by decide)]
    rfl
  simp [parseTimeField, h1, h2, h0]

theorem parseTimeField_hemidayErr (hemiday : String)
    (h1 : hemiday ≠ "AM") (h2 : hemiday ≠ "am") (h3 : hemiday ≠ "PM") (h4 : hemiday ≠ "pm") :
    parseTimeField ("1:00 " ++ hemiday)
      = .error ("Unknown hemiday " ++ rustDebugStr hemiday ++ ", AM/PM or am/pm accepted") := by
  have hdata : ("1:00 " ++ hemiday).data
      = '1' :: ':' :: ('0' :: '0' :: ' ' :: hemiday.data) := by
    simp [String.data_append]
  have hs1 : rsplitOnce ':' ("1:00 " ++ hemiday)
      = some ("1", String.mk ('0' :: '0' :: ' ' :: hemiday.data)) := by
    unfold rsplitOnce
    rw [hdata]
    simp [splitOnceP]
  have hs2 : rsplitOnce ' ' (String.mk ('0' :: '0' :: ' ' :: hemiday.data))
      = some ("00", hemiday) := by
    unfold rsplitOnce
    rw [data_mk]
    simp [splitOnceP]
  have hru : rustParseUInt 8 "1" = .ok 1 := rfl
  simp [parseTimeField, hs1, hs2, hru, h1, h2, h3, h4]

theorem parseDate_ok_length (s : String) (ymd : Nat × Nat × Nat)
    (h : parseDate s = .ok ymd) : 3 ≤ (rsplit '/' s).length := by
  unfold parseDate at h
  rcases hL : rsplit '/' s with _ | ⟨a, _ | ⟨b, _ | ⟨c, tail⟩⟩⟩
  · rw [hL] at h
    simp at h
  · rw [hL] at h
    rcases hm : rustParseUInt 8 a with e | v <;> simp [hm] at h
  · rw [hL] at h
    rcases hm : rustParseUInt 8 a with e | v <;> simp [hm] at h
    rcases hd : rustParseUInt 8 b with e2 | v2 <;> simp [hd] at h
  · simp

theorem collectEntries_append (pre : List String) (bad : String) (post : List String)
    (cause : String) (i : Nat)
    (hpre : ∀ s ∈ pre, ∃ e, UsageEntry.parse s = PResult.ok e)
    (hbad : UsageEntry.parse bad = .err cause) :
    collectEntries i (pre ++ bad :: post)
      = .fail ("On line " ++ toString (pre.length + i + 3)) cause := by
  revert hpre
  induction pre generalizing i with
  | nil =>
    intro hpre
    simp only [List.nil_append, collectEntries, hbad]
    simp
  | cons a as ih =>
    intro hpre
    obtain ⟨e0, he0⟩ := hpre a (List.mem_cons_self a as)
    have has : ∀ s ∈ as, ∃ e, UsageEntry.parse s = PResult.ok e :=
      fun s hs => hpre s (List.mem_cons_of_mem a hs)
    simp only [List.cons_append, collectEntries, he0, List.append_eq]
    rw [ih (i + 1) has]
    have harith : as.length + (i + 1) + 3 = (a :: as).length + i + 3 := by
      simp only [List.length_cons]
      omega
    rw [harith]

theorem parseFields_hours (fields : List String) (e : UsageEntry)
    (h : UsageEntry.parseFields fields = .ok e) :
    e.interval_start_hour ≤ 23 ∧ e.interval_end_hour ≤ 23 := by
  unfold UsageEntry.parseFields at h
  repeat' split at h
  all_goals try simp at h
  all_goals subst h
  all_goals exact ⟨parseTimeField_le _ _ (by assumption), parseTimeField_le _ _ (by assumption)⟩

/-- Claim C1 (code bug in the source): on the exact Scenario A input — whose
USAGE field is `"0.5 "` with a trailing space — `UsageData::parse` panics at
`scalar.parse::<f64>().unwrap()`, because Rust's `f64` parser rejects
trailing whitespace; it does not succeed as the spec states.  With the
trailing space removed, parsing succeeds with exactly the entry the spec
describes: date (2025, 6, 21), start hour 1, end hour 2, 0.5 kWh, empty
note. -/
theorem c1_scenarioA_panics :
    UsageData.parse "123 Main St\n\nTYPE,DATE,START TIME,END TIME,USAGE,UNITS,NOTES\nElectric usage,06/21/2025,1:00 AM,2:00 AM,0.5 ,kWh,\n"
      = .panic unwrapPanicMsg ∧
    UsageData.parse "123 Main St\n\nTYPE,DATE,START TIME,END TIME,USAGE,UNITS,NOTES\nElectric usage,06/21/2025,1:00 AM,2:00 AM,0.5,kWh,\n"
      = .ok ⟨"123 Main St", [⟨(2025, 6, 21), 1, 2, .finite (mkRat 1 2), ""⟩]⟩ :=
  ⟨by decide, by decide⟩

/-- Claim C2 (code bug in the source): the entry parser is NOT total — when
the first six fields are well formed but the USAGE field is not valid f64
text, parsing panics at the `.unwrap()` instead of returning an error, as
shown both for an arbitrary unparsable USAGE string and for the concrete
line with USAGE `abc`. -/
theorem c2_malformed_usage_panics :
    ∀ usageStr : String, rustParseF64 usageStr = none →
      UsageEntry.parseFields
          ["Electric usage", "06/21/2025", "1:00 AM", "2:00 AM", usageStr, "kWh", ""]
        = .panic unwrapPanicMsg ∧
      UsageEntry.parse "Electric usage,06/21/2025,1:00 AM,2:00 AM,abc,kWh,"
        = .panic unwrapPanicMsg := by
  intro usageStr ht
  constructor
  · have hdate : parseDate "06/21/2025" = .ok (2025, 6, 21) := rfl
    have htime : parseTimeField "1:00 AM" = .ok 1 := rfl
    have htime2 : parseTimeField "2:00 AM" = .ok 2 := rfl
    simp [UsageEntry.parseFields, hdate, htime, htime2, ht]
  · decide

/-- Witness for `c2_malformed_usage_panics` at the USAGE string `"abc"`. -/
theorem c2_witness :
    UsageEntry.parseFields
        ["Electric usage", "06/21/2025", "1:00 AM", "2:00 AM", "abc", "kWh", ""]
      = .panic unwrapPanicMsg :=
  (c2_malformed_usage_panics "abc" (by decide)).1

/-- Claim C3 counterexample: a failure on the first data line is annotated
`"On line 3"`, not `"On line 4"` as the claim states. -/
theorem c3_counterexample :
    UsageData.parse "a\n\nTYPE,DATE,START TIME,END TIME,USAGE,UNITS,NOTES\nbad"
      = .entryErr "On line 3" "Unknown entry type \"bad\"" := by decide

/-- Claim C3 as amended: the first failing entry's error is annotated
`"On line (i + 3)"` where `i` is the failing line's 0-based index among the
non-empty data lines (so the first data line is reported as line 3), and
interspersed empty lines are skipped by the numbering, as the concrete
document with an empty line before its failing last line shows (the failing
line is physically line 6 but is reported as line 4). -/
theorem c3_amended_line_numbering :
    (∀ (pre : List String) (bad : String) (post : List String) (cause : String),
        (∀ s ∈ pre, ∃ e, UsageEntry.parse s = PResult.ok e) →
        UsageEntry.parse bad = .err cause →
        collectEntries 0 (pre ++ bad :: post)
          = .fail ("On line " ++ toString (pre.length + 3)) cause) ∧
    UsageData.parse "a\n\nTYPE,DATE,START TIME,END TIME,USAGE,UNITS,NOTES\nElectric usage,06/21/2025,1:00 AM,2:00 AM,0.5,kWh,\n\nbad"
      = .entryErr "On line 4" "Unknown entry type \"bad\"" := by
  constructor
  · intro pre bad post cause hpre hbad
    have h := collectEntries_append pre bad post cause 0 hpre hbad
    simpa using h
  · decide

/-- Witness for `c3_amended_line_numbering` with an empty prefix. -/
theorem c3_witness :
    collectEntries 0 (([] : List String) ++ "bad" :: [])
      = .fail ("On line " ++ toString (List.length ([] : List String) + 3))
          "Unknown entry type \"bad\"" :=
  c3_amended_line_numbering.1 [] "bad" [] "Unknown entry type \"bad\""
    (by simp) (by decide)

/-- Claim C4 counterexample: a DATE field with four `/`-separated parts
parses successfully (the extra part is ignored), contradicting the claim
that it must fail. -/
theorem c4_counterexample :
    UsageEntry.parse "Electric usage,06/21/2025/extra,1:00 AM,2:00 AM,0.5,kWh,"
      = .ok ⟨(2025, 6, 21), 1, 2, .finite (mkRat 1 2), ""⟩ := by decide

/-- Claim C4 as amended: the DATE field must split on `/` into at least
three parts — month, day, year taken from the first three in that textual
order — so fewer than three parts fail, but parts after the third are
silently ignored, as `"06/21/2025/extra"` shows. -/
theorem c4_amended_date_arity :
    (∀ (s : String) (ymd : Nat × Nat × Nat),
        parseDate s = .ok ymd → 3 ≤ (rsplit '/' s).length) ∧
    parseDate "06/21/2025/extra" = .ok (2025, 6, 21) :=
  ⟨parseDate_ok_length, rfl⟩

/-- Witness for `c4_amended_date_arity` at the date string `"06/21/2025"`. -/
theorem c4_witness : 3 ≤ (rsplit '/' "06/21/2025").length :=
  c4_amended_date_arity.1 "06/21/2025" (2025, 6, 21) rfl

/-- Claim C5: 12-hour-clock semantics — any hour string that parses as a
`u8` value `n` yields hour `n % 12` with `AM` and `n % 12 + 12` with `PM`;
in particular a well-formed entry line whose times are `"12:00 AM"`,
`"12:00 PM"`, `"1:00 PM"` produces interval hours 0, 12 and 13. -/
theorem c5_twelve_hour_clock :
    (∀ (hourStr : String) (n : Nat), rustParseUInt 8 hourStr = .ok n →
        parseTimeField (hourStr ++ ":00 AM") = .ok (n % 12) ∧
        parseTimeField (hourStr ++ ":00 PM") = .ok (n % 12 + 12)) ∧
    UsageEntry.parse "Electric usage,06/21/2025,12:00 AM,12:00 PM,0.5,kWh,"
      = .ok ⟨(2025, 6, 21), 0, 12, .finite (mkRat 1 2), ""⟩ ∧
    UsageEntry.parse "Electric usage,06/21/2025,1:00 PM,2:00 PM,0.5,kWh,"
      = .ok ⟨(2025, 6, 21), 13, 14, .finite (mkRat 1 2), ""⟩ :=
  ⟨fun hourStr n h => ⟨parseTimeField_AM hourStr n h, parseTimeField_PM hourStr n h⟩,
   by decide, by decide⟩

/-- Witness for `c5_twelve_hour_clock` at the hour string `"12"`. -/
theorem c5_witness :
    parseTimeField ("12" ++ ":00 AM") = .ok (12 % 12) ∧
    parseTimeField ("12" ++ ":00 PM") = .ok (12 % 12 + 12) :=
  c5_twelve_hour_clock.1 "12" 12 rfl

/-- Claim C6: whenever the minutes part of a time field differs from
`"00"` (in the start time or in the end time of an otherwise well-formed
line), the entry parser rejects the line with the specific non-zero-minutes
error; shown generally and at the concrete Scenario C line `1:15 AM`. -/
theorem c6_nonzero_minutes :
    (∀ (minutes hemiday : String), minutes ≠ "00" →
        (∀ x ∈ minutes.data, (x == ' ') = false) →
        UsageEntry.parseFields
            ["Electric usage", "06/21/2025", "1:" ++ minutes ++ " " ++ hemiday,
             "2:00 AM", "0.5", "kWh", ""]
          = .err "Program is illequiped to handle non-zero minutes" ∧
        UsageEntry.parseFields
            ["Electric usage", "06/21/2025", "1:00 AM",
             "1:" ++ minutes ++ " " ++ hemiday, "0.5", "kWh", ""]
          = .err "Program is illequiped to handle non-zero minutes") ∧
    UsageEntry.parse "Electric usage,06/21/2025,1:15 AM,2:00 AM,0.5,kWh,"
      = .err "Program is illequiped to handle non-zero minutes" := by
  constructor
  · intro minutes hemiday h0 hsp
    have ht := parseTimeField_minutes minutes hemiday h0 hsp
    have hdate : parseDate "06/21/2025" = .ok (2025, 6, 21) := rfl
    have htime1 : parseTimeField "1:00 AM" = .ok 1 := rfl
    constructor
    · simp [UsageEntry.parseFields, hdate, ht]
    · simp [UsageEntry.parseFields, hdate, htime1, ht]
  · decide

/-- Witness for `c6_nonzero_minutes` at minutes `"15"`. -/
theorem c6_witness :
    UsageEntry.parseFields
        ["Electric usage", "06/21/2025", "1:" ++ "15" ++ " " ++ "AM",
         "2:00 AM", "0.5", "kWh", ""]
      = .err "Program is illequiped to handle non-zero minutes" :=
  ((c6_nonzero_minutes.1 "15" "AM" (by decide) (by decide)).1)

/-- Claim C7: a meridiem token outside AM/am/PM/pm makes the entry parser
fail with an error that names the bad token, shown generally and at the
concrete token `"XX"`. -/
theorem c7_unknown_meridiem :
    (∀ hemiday : String,
        hemiday ≠ "AM" → hemiday ≠ "am" → hemiday ≠ "PM" → hemiday ≠ "pm" →
        UsageEntry.parseFields
            ["Electric usage", "06/21/2025", "1:00 " ++ hemiday, "2:00 AM", "0.5", "kWh", ""]
          = .err ("Unknown hemiday " ++ rustDebugStr hemiday ++ ", AM/PM or am/pm accepted")) ∧
    UsageEntry.parse "Electric usage,06/21/2025,1:00 XX,2:00 AM,0.5,kWh,"
      = .err "Unknown hemiday \"XX\", AM/PM or am/pm accepted" := by
  constructor
  · intro hemiday h1 h2 h3 h4
    have ht := parseTimeField_hemidayErr hemiday h1 h2 h3 h4
    have hdate : parseDate "06/21/2025" = .ok (2025, 6, 21) := rfl
    simp [UsageEntry.parseFields, hdate, ht]
  · decide

/-- Witness for `c7_unknown_meridiem` at the token `"XX"`. -/
theorem c7_witness :
    UsageEntry.parseFields
        ["Electric usage", "06/21/2025", "1:00 " ++ "XX", "2:00 AM", "0.5", "kWh", ""]
      = .err ("Unknown hemiday " ++ rustDebugStr "XX" ++ ", AM/PM or am/pm accepted") :=
  c7_unknown_meridiem.1 "XX" (by decide) (by decide) (by decide) (by decide)

/-- Claim C8: every successfully parsed entry has both interval hours in
the range [0, 23]. -/
theorem c8_hours_in_range :
    ∀ (line : String) (e : UsageEntry), UsageEntry.parse line = .ok e →
      e.interval_start_hour ≤ 23 ∧ e.interval_end_hour ≤ 23 :=
  fun line e h => parseFields_hours (rsplit ',' line) e h

/-- Witness for `c8_hours_in_range` at a line whose hours hit both range
ends (23 and 0). -/
theorem c8_witness :
    (⟨(2025, 6, 21), 23, 0, .finite (mkRat 1 2), ""⟩ : UsageEntry).interval_start_hour ≤ 23 ∧
    (⟨(2025, 6, 21), 23, 0, .finite (mkRat 1 2), ""⟩ : UsageEntry).interval_end_hour ≤ 23 :=
  c8_hours_in_range "Electric usage,06/21/2025,11:00 PM,12:00 AM,0.5,kWh,"
    ⟨(2025, 6, 21), 23, 0, .finite (mkRat 1 2), ""⟩ (by decide)

/-- Claim C9: the entry parser consumes exactly 7 comma-separated fields —
the 7th (NOTE) is taken verbatim and may be the empty string produced by a
trailing comma, while any 8th or later field yields the "Extra entries in
the line" error. -/
theorem c9_exactly_seven_fields :
    (∀ note : String,
        UsageEntry.parseFields
            ["Electric usage", "06/21/2025", "1:00 AM", "2:00 AM", "0.5", "kWh", note]
          = .ok ⟨(2025, 6, 21), 1, 2, .finite (mkRat 1 2), note⟩) ∧
    (∀ (note extra : String) (rest : List String),
        UsageEntry.parseFields
            ("Electric usage" :: "06/21/2025" :: "1:00 AM" :: "2:00 AM" :: "0.5" :: "kWh"
              :: note :: extra :: rest)
          = .err "Extra entries in the line") ∧
    UsageEntry.parse "Electric usage,06/21/2025,1:00 AM,2:00 AM,0.5,kWh,"
      = .ok ⟨(2025, 6, 21), 1, 2, .finite (mkRat 1 2), ""⟩ ∧
    UsageEntry.parse "Electric usage,06/21/2025,1:00 AM,2:00 AM,0.5,kWh,,oops"
      = .err "Extra entries in the line" :=
  ⟨fun note => rfl, fun note extra rest => rfl, by decide, by decide⟩

/-- Claim C10: the "Expected an address at the top of the file" failure is
unreachable — splitting any input on newlines yields at least one first
line, accepted verbatim as the address — so the empty input fails with the
blank-second-line error, and a document whose first (address) line is empty
parses successfully. -/
theorem c10_address_error_unreachable :
    (∀ input : String,
        (UsageData.parse input == DocResult.err "Expected an address at the top of the file")
          = false) ∧
    UsageData.parse "" = .err "Expected second line to be blank" ∧
    UsageData.parse "\n\nTYPE,DATE,START TIME,END TIME,USAGE,UNITS,NOTES\nElectric usage,06/21/2025,1:00 AM,2:00 AM,0.5,kWh,"
      = .ok ⟨"", [⟨(2025, 6, 21), 1, 2, .finite (mkRat 1 2), ""⟩]⟩ := by
  refine ⟨?_, by decide, by decide⟩
  intro input
  rw [beq_eq_false_iff_ne]
  rcases hL : rsplit '\n' input with _ | ⟨a, rest⟩
  · exact absurd hL (rsplit_ne_nil '\n' input)
  rcases rest with _ | ⟨b, rest2⟩
  · simp [UsageData.parse, hL]
  by_cases hb : b = ""
  · subst hb
    rcases rest2 with _ | ⟨c, dataLines⟩
    · simp [UsageData.parse, hL]
    by_cases hc : c = headerLine
    · subst hc
      rcases hE : collectEntries 0 (dataLines.filter (fun l => !l.isEmpty)) with es | ⟨ctx, cause⟩ | m <;>
        simp [UsageData.parse, hL, entriesToDoc, hE]
    · simp [UsageData.parse, hL, hc]
  · simp [UsageData.parse, hL, hb]

end PlotElec
